import Mathlib

/-!
Verification of the broadcast fan-out core of `src/main.go` (a Go/Fiber chat server).

The fan-out core consists of (line numbers refer to `src/main.go`):
* the global registry `var clients = make(map[*websocket.Conn]bool)` (line 227),
* the global channel `var broadcast = make(chan Message)` (line 228),
* the fan-out loop `handleMessages` (lines 230-241),
* the per-connection websocket handler (lines 275-289).

Connections are identified by reference identity, embedded as `Nat`.  The Go map
`clients` is embedded as a `List Conn` in some iteration order (map keys are unique,
so `Nodup` hypotheses appear where key-uniqueness matters).  The outcome of each
`WriteJSON` call is an oracle `wr : Nat → Conn → Bool` (round index, target
connection); the sequential interleaving of the goroutines is at the granularity of
whole map operations.
-/

namespace Lab9

/-- A client connection; the source has no identity beyond the `*websocket.Conn`
pointer itself, so equality is reference identity. -/
abbrev Conn := Nat

/-- The chat message type of `src/main.go` lines 222-225: two string fields,
`username` and `message`. -/
structure Message where
  username : String
  message : String
deriving DecidableEq, Repr

/-- Go map insert `clients[c] = true` (line 276): adds the key if absent; a map
never holds a key twice. -/
def addClient (cs : List Conn) (c : Conn) : List Conn :=
  if c ∈ cs then cs else c :: cs

/-- Go map delete `delete(clients, c)` (lines 237 and 278): removes the key if
present, and is a no-op on an absent key. -/
def removeClient (cs : List Conn) (c : Conn) : List Conn :=
  cs.filter (fun x => x != c)

/-- One pass of the inner loop of `handleMessages` (lines 233-239):
`for client := range clients` attempts `client.WriteJSON(msg)`; on error the
client is closed and deleted from the map, and the loop continues with the next
client.  `wr c` tells whether the write to `c` succeeds.  Returns
(registry after the pass, clients written successfully, clients closed). -/
def deliverRound (wr : Conn → Bool) : List Conn → List Conn × List Conn × List Conn
  | [] => ([], [], [])
  | c :: rest =>
    let r := deliverRound wr rest
    if wr c then (c :: r.1, c :: r.2.1, r.2.2)
    else (r.1, r.2.1, c :: r.2.2)

/-- The outer loop of `handleMessages` (lines 231-240), run over a finite queue of
pending messages: `msg := <-broadcast` dequeues in FIFO order (Go channels are
FIFO), then the message is fanned out to the current registry.  `wr i c` is the
outcome of writing the `i`-th dequeued message to `c`.  Returns the final registry
and the delivery log: for each dequeued message, the message and the clients it
was delivered to.  The loop body never returns or propagates an error (a failed
write is only logged). -/
def handleMessages (wr : Nat → Conn → Bool) : Nat → List Message → List Conn →
    List Conn × List (Message × List Conn)
  | _, [], cs => (cs, [])
  | i, m :: ms, cs =>
    let r := deliverRound (wr i) cs
    let rest := handleMessages wr (i + 1) ms r.1
    (rest.1, (m, r.2.1) :: rest.2)

/-- Registry contents at the start of round `j` (just before the `j`-th dequeued
message is fanned out), starting from registry `cs` at round `0`.  These are
exactly the clients to which a delivery attempt is made in round `j`. -/
def regAt (wr : Nat → Conn → Bool) (cs : List Conn) : Nat → List Conn
  | 0 => cs
  | j + 1 => (deliverRound (wr j) (regAt wr cs j)).1

/-- The sequence of messages client `c` observes (successful writes to `c`) in the
run of `handleMessages` over the queue `ms`, in delivery order. -/
def observed (wr : Nat → Conn → Bool) (c : Conn) : Nat → List Message → List Conn →
    List Message
  | _, [], _ => []
  | i, m :: ms, cs =>
    let r := deliverRound (wr i) cs
    (if c ∈ r.2.1 then [m] else []) ++ observed wr c (i + 1) ms r.1

/-- Capacity of the broadcast channel: `make(chan Message)` (line 228) creates an
unbuffered Go channel, capacity `0`. -/
def broadcastCap : Nat := 0

/-- Go channel send semantics for `broadcast <- msg` (line 287): a send completes
without blocking iff a receiver is currently waiting on the channel, or the
channel's buffer has free space (fewer than `cap` messages queued). -/
def sendNonBlocking (cap buffered : Nat) (receiverWaiting : Bool) : Bool :=
  receiverWaiting || decide (buffered < cap)

/-- The claim's reading of the spec: the Broadcast Channel is unbounded (or large
enough) so that an enqueue completes without a ready receiver, whatever the
backlog.  Stated over the channel the source actually creates. -/
def specEnqueueNeverBlocks : Prop :=
  ∀ buffered, sendNonBlocking broadcastCap buffered false = true

/-- Outcome of one `WriteJSON` call when blocking is made explicit: the call
returns `nil`, returns an error, or never returns.  The source never calls
`SetWriteDeadline`, so a write may block forever. -/
inductive WriteOutcome
  | ok
  | err
  | block
deriving DecidableEq, Repr

/-- The inner loop of `handleMessages` with blocking writes made explicit: each
`client.WriteJSON(msg)` is called synchronously, so a call that never returns
halts the loop at that client.  Returns the clients successfully written before
the loop halted, and whether the loop is stalled on a blocked write. -/
def deliverRoundB (w : Conn → WriteOutcome) : List Conn → List Conn × Bool
  | [] => ([], false)
  | c :: rest =>
    match w c with
    | .ok => let r := deliverRoundB w rest; (c :: r.1, r.2)
    | .err => deliverRoundB w rest
    | .block => ([], true)

/-- Result of one `c.ReadJSON(&msg)` call in the handler loop (line 283): either a
successfully decoded message, or a read/decode failure (malformed payload, peer
disconnect, transport error). -/
inductive ReadR
  | msg (m : Message)
  | fail
deriving DecidableEq, Repr

/-- Whether a read/decode failure occurs somewhere in the trace of read results. -/
def hasFail : List ReadR → Bool
  | [] => false
  | .msg _ :: rest => hasFail rest
  | .fail :: _ => true

/-- The handler's read loop (lines 281-288): each successful decode is enqueued to
`broadcast`; the first failure breaks out of the loop, so nothing after it is
read or enqueued. -/
def readLoop : List ReadR → List Message
  | [] => []
  | .msg m :: rest => m :: readLoop rest
  | .fail :: _ => []

/-- What the websocket handler leaves behind once it terminates. -/
structure HandlerResult where
  registryAfter : List Conn
  enqueued : List Message
  connClosed : Bool
deriving DecidableEq, Repr

/-- The websocket handler of `main` (lines 275-289) for connection `c`, given the
trace of its read results and the registry at entry: it first registers itself
(`clients[c] = true`), then runs the read loop; the deferred cleanup
(`delete(clients, c); c.Close()`) runs when the loop breaks on a read failure.
`none` means the handler is still running (its trace shows no failure yet). -/
def wsHandler (c : Conn) (reads : List ReadR) (cs : List Conn) : Option HandlerResult :=
  if hasFail reads then
    some { registryAfter := removeClient (addClient cs c) c
           enqueued := readLoop reads
           connClosed := true }
  else
    none

/-- Observable actions of the websocket handler, in program order. -/
inductive HAct
  | register
  | read
  | enqueue (m : Message)
  | deregister
  | close
deriving DecidableEq, Repr

/-- Actions of the handler's read loop: each iteration reads, and on success
enqueues; the first failure triggers the deferred deregister-and-close. -/
def actionsOf : List ReadR → List HAct
  | [] => []
  | .msg m :: rest => HAct.read :: HAct.enqueue m :: actionsOf rest
  | .fail :: _ => [HAct.read, HAct.deregister, HAct.close]

/-- Full action trace of the websocket handler: `clients[c] = true` (line 276) is
executed before the loop performs its first `ReadJSON`. -/
def handlerTrace (reads : List ReadR) : List HAct :=
  HAct.register :: actionsOf reads

/-! Helper lemmas about the embedded operations. -/

/-- After one delivery pass the registry holds exactly the clients whose write
succeeded: the failing ones were deleted, nothing else changed. -/
theorem deliverRound_fst (w : Conn → Bool) (cs : List Conn) :
    (deliverRound w cs).1 = cs.filter w := by
  induction cs with
  | nil => rfl
  | cons c rest ih =>
    simp only [deliverRound, List.filter_cons]
    cases h : w c <;> simp [h, ih]

/-- The clients delivered to in one pass are exactly those whose write succeeded. -/
theorem deliverRound_del (w : Conn → Bool) (cs : List Conn) :
    (deliverRound w cs).2.1 = cs.filter w := by
  induction cs with
  | nil => rfl
  | cons c rest ih =>
    simp only [deliverRound, List.filter_cons]
    cases h : w c <;> simp [h, ih]

/-- The clients closed in one pass are exactly those whose write failed. -/
theorem deliverRound_closed (w : Conn → Bool) (cs : List Conn) :
    (deliverRound w cs).2.2 = cs.filter (fun x => !(w x)) := by
  induction cs with
  | nil => rfl
  | cons c rest ih =>
    simp only [deliverRound, List.filter_cons]
    cases h : w c <;> simp [h, ih]

/-- Unfolding the registry one round at a time. -/
theorem regAt_succ (wr : Nat → Conn → Bool) (cs : List Conn) (j : Nat) :
    regAt wr cs (j + 1) = (regAt wr cs j).filter (wr j) := by
  simp [regAt, deliverRound_fst]

/-- A connection absent from the registry never reappears: the fan-out loop only
ever deletes clients. -/
theorem not_mem_regAt (wr : Nat → Conn → Bool) (cs : List Conn) (c : Conn)
    (h : c ∉ cs) : ∀ k, c ∉ regAt wr cs k := by
  intro k
  induction k with
  | zero => exact h
  | succ k ih =>
    rw [regAt_succ]
    intro hmem
    exact ih (List.mem_filter.mp hmem).1

/-- Once a connection has left the registry it stays out at every later round. -/
theorem not_mem_regAt_mono (wr : Nat → Conn → Bool) (cs : List Conn) (c : Conn)
    (j k : Nat) (hjk : j ≤ k) (h : c ∉ regAt wr cs j) : c ∉ regAt wr cs k := by
  induction k, hjk using Nat.le_induction with
  | base => exact h
  | succ k hk ih =>
    rw [regAt_succ]
    intro hmem
    exact ih (List.mem_filter.mp hmem).1

/-- The fan-out loop processes every queued message: a write failure never
terminates it early. -/
theorem handleMessages_len (wr : Nat → Conn → Bool) (i : Nat) (ms : List Message)
    (cs : List Conn) : (handleMessages wr i ms cs).2.length = ms.length := by
  induction ms generalizing i cs with
  | nil => rfl
  | cons m ms ih => simp [handleMessages, ih]

/-- The delivery log lists exactly the queued messages, in queue (FIFO) order. -/
theorem handleMessages_map_fst (wr : Nat → Conn → Bool) (i : Nat)
    (ms : List Message) (cs : List Conn) :
    (handleMessages wr i ms cs).2.map Prod.fst = ms := by
  induction ms generalizing i cs with
  | nil => rfl
  | cons m ms ih => simp [handleMessages, ih]

/-- Any client's observation sequence is a sublist of the message queue: relative
order of delivered messages follows enqueue order. -/
theorem observed_sublist (wr : Nat → Conn → Bool) (c : Conn) (i : Nat)
    (ms : List Message) (cs : List Conn) :
    List.Sublist (observed wr c i ms cs) ms := by
  induction ms generalizing i cs with
  | nil => exact List.Sublist.refl _
  | cons m ms ih =>
    simp only [observed]
    by_cases h : c ∈ (deliverRound (wr i) cs).2.1
    · simpa [h] using List.Sublist.cons₂ m (ih (i + 1) (deliverRound (wr i) cs).1)
    · simpa [h] using List.Sublist.cons m (ih (i + 1) (deliverRound (wr i) cs).1)

/-- A registered client whose writes all succeed observes the whole queue. -/
theorem observed_all (wr : Nat → Conn → Bool) (c : Conn) (i : Nat)
    (ms : List Message) (cs : List Conn)
    (hwr : ∀ j, wr j c = true) (hc : c ∈ cs) :
    observed wr c i ms cs = ms := by
  induction ms generalizing i cs with
  | nil => rfl
  | cons m ms ih =>
    have hmem : c ∈ cs.filter (wr i) := List.mem_filter.mpr ⟨hc, hwr i⟩
    simp only [observed, deliverRound_del, deliverRound_fst, hmem, if_pos]
    simpa using ih (i + 1) (cs.filter (wr i)) hmem

/-- Removing an absent connection leaves the registry unchanged. -/
theorem removeClient_of_not_mem (cs : List Conn) (c : Conn) (h : c ∉ cs) :
    removeClient cs c = cs := by
  refine List.filter_eq_self.mpr fun x hx => ?_
  simp only [bne_iff_ne]
  exact fun hxc => h (hxc ▸ hx)

/-- A removed connection is gone from the registry. -/
theorem not_mem_removeClient (cs : List Conn) (c : Conn) :
    c ∉ removeClient cs c := by
  simp [removeClient, List.mem_filter]

/-- Removing one connection does not change any other connection's membership. -/
theorem mem_removeClient_iff (cs : List Conn) (c d : Conn) (h : d ≠ c) :
    d ∈ removeClient cs c ↔ d ∈ cs := by
  simp [removeClient, List.mem_filter, h]

/-- A failure anywhere in a concatenated trace is a failure in one of the parts. -/
theorem hasFail_append (a b : List ReadR) :
    hasFail (a ++ b) = (hasFail a || hasFail b) := by
  induction a with
  | nil => rfl
  | cons r rest ih => cases r <;> simp [hasFail, ih]

/-- The read loop enqueues exactly the messages decoded before the first failure:
nothing after the failure is read. -/
theorem readLoop_append_fail (pre post : List ReadR) (h : hasFail pre = false) :
    readLoop (pre ++ ReadR.fail :: post) = readLoop pre := by
  induction pre with
  | nil => rfl
  | cons r rest ih =>
    cases r with
    | msg m =>
      simp only [hasFail] at h
      simp [readLoop, ih h]
    | fail => simp [hasFail] at h

/-! The claims. -/

/-- C1: a write failure during fan-out is isolated — the failing connection is
closed and removed from the registry, the same message is still delivered to
every other registered connection whose write succeeds (no early abort), and the
loop goes on to process every remaining queued message; no error is propagated
to the producing handler (the loop's result carries no error, failures are only
logged). -/
theorem C1_write_failure_isolated (wr : Nat → Conn → Bool) (i : Nat)
    (cs : List Conn) (c d : Conn) (ms : List Message)
    (hc : c ∈ cs) (hfail : wr i c = false)
    (hd : d ∈ cs) (hok : wr i d = true) :
    c ∈ (deliverRound (wr i) cs).2.2 ∧
    c ∉ (deliverRound (wr i) cs).1 ∧
    d ∈ (deliverRound (wr i) cs).2.1 ∧
    (handleMessages wr i ms cs).2.length = ms.length := by
  refine ⟨?_, ?_, ?_, handleMessages_len wr i ms cs⟩
  · rw [deliverRound_closed]
    exact List.mem_filter.mpr ⟨hc, by simp [hfail]⟩
  · rw [deliverRound_fst]
    intro hmem
    have := (List.mem_filter.mp hmem).2
    rw [hfail] at this
    exact Bool.false_ne_true this
  · rw [deliverRound_del]
    exact List.mem_filter.mpr ⟨hd, hok⟩

/-- Witness for C1: registry domain 1, 2, 3; the write of the first message to
connection 1 fails while the others succeed. -/
theorem C1_write_failure_isolated_witness :
    1 ∈ (deliverRound (fun x => x != 1) [1, 2, 3]).2.2 ∧
    1 ∉ (deliverRound (fun x => x != 1) [1, 2, 3]).1 ∧
    2 ∈ (deliverRound (fun x => x != 1) [1, 2, 3]).2.1 ∧
    (handleMessages (fun _ x => x != 1) 0 [⟨"alice", "hi"⟩] [1, 2, 3]).2.length = 1 :=
  C1_write_failure_isolated (fun _ x => x != 1) 0 [1, 2, 3] 1 2 [⟨"alice", "hi"⟩]
    (by decide) (by decide) (by decide) (by decide)

/-- C2: once a connection is out of the registry — removed by its handler
(modelled by starting from any registry state not containing it) or deleted by
the fan-out loop after a failed write at round `j` — no later round makes any
delivery attempt to it: the attempts of round `k` are exactly the registry
contents at round `k`, and the connection is not among them. -/
theorem C2_no_delivery_after_removal (wr : Nat → Conn → Bool)
    (cs cs' : List Conn) (c : Conn) (j k : Nat)
    (hfail : wr j c = false) (hjk : j < k) (hc' : c ∉ cs') :
    c ∉ regAt wr cs' k ∧
    c ∉ regAt wr cs k ∧
    c ∉ (deliverRound (wr k) (regAt wr cs k)).2.1 := by
  have hout : c ∉ regAt wr cs (j + 1) := by
    rw [regAt_succ]
    intro hmem
    have := (List.mem_filter.mp hmem).2
    rw [hfail] at this
    exact Bool.false_ne_true this
  have hk : c ∉ regAt wr cs k := not_mem_regAt_mono wr cs c (j + 1) k hjk hout
  refine ⟨not_mem_regAt wr cs' c hc' k, hk, ?_⟩
  rw [deliverRound_del]
  intro hmem
  exact hk (List.mem_filter.mp hmem).1

/-- Witness for C2: connection 1 fails its write in round 0 and is absent from
registry, attempts and deliveries of round 1; it is likewise never targeted when
starting from a registry that no longer contains it. -/
theorem C2_no_delivery_after_removal_witness :
    1 ∉ regAt (fun _ x => x != 1) [2, 3] 1 ∧
    1 ∉ regAt (fun _ x => x != 1) [1, 2] 1 ∧
    1 ∉ (deliverRound ((fun (_ : Nat) (x : Conn) => x != 1) 1)
          (regAt (fun _ x => x != 1) [1, 2] 1)).2.1 :=
  C2_no_delivery_after_removal (fun _ x => x != 1) [1, 2] [2, 3] 1 0 1
    (by decide) (by decide) (by decide)

/-- C3: the fan-out loop dequeues messages from the broadcast channel in FIFO
enqueue order (the delivery log lists the queue unchanged); any connection's
observation sequence is a sublist of the queue, so two messages are always
observed in enqueue order; and a connection that stays registered and writable
through the whole run observes the entire queue in order. -/
theorem C3_fifo_order (wr : Nat → Conn → Bool) (ms : List Message)
    (cs : List Conn) (i : Nat) (c e : Conn)
    (hc : c ∈ cs) (hwr : ∀ j, wr j c = true) :
    (handleMessages wr i ms cs).2.map Prod.fst = ms ∧
    List.Sublist (observed wr e i ms cs) ms ∧
    observed wr c i ms cs = ms :=
  ⟨handleMessages_map_fst wr i ms cs, observed_sublist wr e i ms cs,
    observed_all wr c i ms cs hwr hc⟩

/-- Witness for C3: a two-message queue fanned out to the single connection 5;
connection 7 is an arbitrary bystander for the sublist part. -/
theorem C3_fifo_order_witness :
    (handleMessages (fun _ _ => true) 0 [⟨"alice", "hi"⟩, ⟨"bob", "yo"⟩] [5]).2.map
        Prod.fst = [⟨"alice", "hi"⟩, ⟨"bob", "yo"⟩] ∧
    List.Sublist
      (observed (fun _ _ => true) 7 0 [⟨"alice", "hi"⟩, ⟨"bob", "yo"⟩] [5])
      [⟨"alice", "hi"⟩, ⟨"bob", "yo"⟩] ∧
    observed (fun _ _ => true) 5 0 [⟨"alice", "hi"⟩, ⟨"bob", "yo"⟩] [5] =
      [⟨"alice", "hi"⟩, ⟨"bob", "yo"⟩] :=
  C3_fifo_order (fun _ _ => true) [⟨"alice", "hi"⟩, ⟨"bob", "yo"⟩] [5] 0 5 7
    (by decide) (fun _ => rfl)

/-- C6: when a message is dequeued with the registry holding distinct connections
that are all writable, the head entry of the delivery log carries that very
message unchanged (hence with `username` and `message` fields intact), every
registered connection — the sender included, since it registered itself at entry
— appears exactly once among its recipients, and the recipients are the whole
registry. -/
theorem C6_delivered_exactly_once (wr : Nat → Conn → Bool) (cs : List Conn)
    (c : Conn) (m : Message) (ms : List Message)
    (hnd : cs.Nodup) (hc : c ∈ cs) (hall : ∀ d ∈ cs, wr 0 d = true) :
    (handleMessages wr 0 (m :: ms) cs).2.head? =
      some (m, (deliverRound (wr 0) cs).2.1) ∧
    (deliverRound (wr 0) cs).2.1 = cs ∧
    ((deliverRound (wr 0) cs).2.1).count c = 1 := by
  have hfull : (deliverRound (wr 0) cs).2.1 = cs := by
    rw [deliverRound_del]
    exact List.filter_eq_self.mpr hall
  refine ⟨rfl, hfull, ?_⟩
  rw [hfull]
  exact List.count_eq_one_of_mem hnd hc

/-- Witness for C6: three connections 1, 2, 3 (connection 1 is the sender), all
writable; the message reaches each of them exactly once, unchanged. -/
theorem C6_delivered_exactly_once_witness :
    (handleMessages (fun _ _ => true) 0 [⟨"alice", "hi"⟩] [1, 2, 3]).2.head? =
      some (⟨"alice", "hi"⟩, (deliverRound ((fun (_ : Nat) (_ : Conn) => true) 0)
        [1, 2, 3]).2.1) ∧
    (deliverRound ((fun (_ : Nat) (_ : Conn) => true) 0) [1, 2, 3]).2.1 = [1, 2, 3] ∧
    ((deliverRound ((fun (_ : Nat) (_ : Conn) => true) 0) [1, 2, 3]).2.1).count 1 = 1 :=
  C6_delivered_exactly_once (fun _ _ => true) [1, 2, 3] 1 ⟨"alice", "hi"⟩ []
    (by decide) (by decide) (by decide)

/-- C7: a read or decode failure makes the handler stop reading (nothing decoded
after the failure is enqueued), terminate, remove its own connection from the
registry and close it; every other connection keeps its registry membership, so
the failure is local, not fatal to the system. -/
theorem C7_read_failure_closes_handler (c : Conn) (cs : List Conn)
    (pre post : List ReadR) (hpre : hasFail pre = false) :
    ∃ r, wsHandler c (pre ++ ReadR.fail :: post) cs = some r ∧
      r.connClosed = true ∧
      c ∉ r.registryAfter ∧
      (∀ d ∈ cs, d ≠ c → d ∈ r.registryAfter) ∧
      r.enqueued = readLoop pre := by
  have hfailed : hasFail (pre ++ ReadR.fail :: post) = true := by
    rw [hasFail_append, hpre]
    rfl
  refine ⟨{ registryAfter := removeClient (addClient cs c) c,
            enqueued := readLoop (pre ++ ReadR.fail :: post),
            connClosed := true }, by simp [wsHandler, hfailed], rfl,
      not_mem_removeClient _ c, ?_, ?_⟩
  · intro d hd hdc
    refine (mem_removeClient_iff _ c d hdc).mpr ?_
    unfold addClient
    by_cases h : c ∈ cs <;> simp [h, hd]
  · exact readLoop_append_fail pre post hpre

/-- Witness for C7: connection 1 (registry holds 1 and 2) decodes one message and
then hits a read failure; a further message sits unread behind the failure. -/
theorem C7_read_failure_closes_handler_witness :
    ∃ r, wsHandler 1 ([ReadR.msg ⟨"alice", "hi"⟩] ++
        ReadR.fail :: [ReadR.msg ⟨"bob", "yo"⟩]) [1, 2] = some r ∧
      r.connClosed = true ∧
      1 ∉ r.registryAfter ∧
      (∀ d ∈ [1, 2], d ≠ 1 → d ∈ r.registryAfter) ∧
      r.enqueued = readLoop [ReadR.msg ⟨"alice", "hi"⟩] :=
  C7_read_failure_closes_handler 1 [1, 2] [ReadR.msg ⟨"alice", "hi"⟩]
    [ReadR.msg ⟨"bob", "yo"⟩] (by decide)

/-- C8: removal is idempotent — removing an absent connection is a no-op that
returns the registry unchanged, removing the same connection twice equals
removing it once, and removal never changes any other connection's membership. -/
theorem C8_remove_idempotent (cs cs' : List Conn) (c d : Conn)
    (habs : c ∉ cs') (hne : d ≠ c) :
    removeClient cs' c = cs' ∧
    removeClient (removeClient cs c) c = removeClient cs c ∧
    (d ∈ removeClient cs c ↔ d ∈ cs) := by
  refine ⟨removeClient_of_not_mem cs' c habs, ?_, mem_removeClient_iff cs c d hne⟩
  exact removeClient_of_not_mem _ c (not_mem_removeClient cs c)

/-- Witness for C8: removing connection 1 from a registry that holds 2 and 3 is a
no-op; on a registry holding 1 and 2, a second removal of 1 changes nothing and
connection 2 stays registered. -/
theorem C8_remove_idempotent_witness :
    removeClient [2, 3] 1 = [2, 3] ∧
    removeClient (removeClient [1, 2] 1) 1 = removeClient [1, 2] 1 ∧
    (2 ∈ removeClient [1, 2] 1 ↔ 2 ∈ [1, 2]) :=
  C8_remove_idempotent [1, 2] [2, 3] 1 2 (by decide) (by decide)

/-- C10: in the handler's action trace, registration is the very first action —
every read occurs strictly after it — and a registered connection to which
writes succeed receives every message fanned out while it is registered, whether
or not it ever enqueues a message of its own (`observed` does not depend on what
the connection sends). -/
theorem C10_registered_before_first_read (reads : List ReadR)
    (wr : Nat → Conn → Bool) (cs : List Conn) (ms : List Message)
    (c : Conn) (i : Nat) (hc : c ∈ cs) (hwr : ∀ j, wr j c = true) :
    (handlerTrace reads).head? = some HAct.register ∧
    (∀ k, (handlerTrace reads).get? k = some HAct.read → 0 < k) ∧
    observed wr c i ms cs = ms := by
  refine ⟨rfl, ?_, observed_all wr c i ms cs hwr hc⟩
  intro k hk
  cases k with
  | zero => simp [handlerTrace] at hk
  | succ k => exact Nat.succ_pos k

/-- Witness for C10: a handler that reads one message and then fails; connection
4 is registered, all writes to it succeed, and it observes the whole queue. -/
theorem C10_registered_before_first_read_witness :
    (handlerTrace [ReadR.msg ⟨"alice", "hi"⟩, ReadR.fail]).head? =
      some HAct.register ∧
    (∀ k, (handlerTrace [ReadR.msg ⟨"alice", "hi"⟩, ReadR.fail]).get? k =
      some HAct.read → 0 < k) ∧
    observed (fun _ _ => true) 4 0 [⟨"bob", "yo"⟩] [4] = [⟨"bob", "yo"⟩] :=
  C10_registered_before_first_read [ReadR.msg ⟨"alice", "hi"⟩, ReadR.fail]
    (fun _ _ => true) [4] [⟨"bob", "yo"⟩] 4 0 (by decide) (fun _ => rfl)

/-- C4 counterexample: the claim that the broadcast channel is unbounded (or
large enough) for an enqueue to complete with no ready receiver is false of the
channel the source creates — `make(chan Message)` is unbuffered, so a send with
no waiting receiver and an empty buffer blocks. -/
theorem C4_counterexample_unbuffered : ¬ specEnqueueNeverBlocks := by
  intro h
  exact absurd (h 0) (by decide)

/-- C4 (amended): the broadcast channel is an unbuffered, capacity-0 rendezvous
channel — a handler's enqueue completes exactly when the fan-out loop is waiting
to receive, and blocks (for every backlog value) when no receiver is waiting. -/
theorem C4_amended_rendezvous :
    broadcastCap = 0 ∧
    (∀ b, sendNonBlocking broadcastCap b true = true) ∧
    (∀ b, sendNonBlocking broadcastCap b false = false) := by
  refine ⟨rfl, fun b => rfl, fun b => ?_⟩
  simp [sendNonBlocking, broadcastCap]

/-- C9: the code evaluated at the failing input — registry holds connections 1
and 2, the synchronous deadline-free `WriteJSON` to connection 1 never returns —
shows the fan-out stalled with connection 2 never delivered to, whereas the same
registry without the blocked write delivers to both. -/
theorem C9_blocked_write_stalls_fanout :
    (deliverRoundB
        (fun x => if x = 1 then WriteOutcome.block else WriteOutcome.ok)
        [1, 2]).2 = true ∧
    2 ∉ (deliverRoundB
        (fun x => if x = 1 then WriteOutcome.block else WriteOutcome.ok)
        [1, 2]).1 ∧
    (deliverRoundB (fun _ => WriteOutcome.ok) [1, 2]).1 = [1, 2] := by
  decide

end Lab9
